import Mathlib

/-!
Shallow embedding of the direct-messaging backend (controllers/messageController.js
together with the Message schema in models/Message.js), and proofs about it.

Modelling conventions:
* Mongo ObjectIds are `Nat`; timestamps (`Date`) are `Nat` ticks.
* The durable state is the list of users (the `users` collection, by id) and the
  list of persisted messages (the `messages` collection, in insertion order).
* Each controller is a pure function from its request data and the state to a
  result together with the message store after the call.  Socket fan-out has no
  effect on durable state and is not modelled.
* Mongoose queries: a chained `.skip(..).limit(..).sort(..)` always applies the
  sort first, then skip, then limit, independent of chaining order; `sort` with
  `createdAt: -1` is modelled by insertion sort with the reflexive total
  relation "createdAt greater or equal".
* `Message.create` applies the schema of models/Message.js: `content` is
  trimmed, required, and rejected above 1000 characters.  The controller has
  no own length check, so that rejection is thrown, forwarded by
  `asyncHandler`, and lands in the app's generic inline error middleware,
  which answers 500 "Internal server error" — a distinct outcome from the
  controller's own 400 responses, modelled as `serverError`.
-/

namespace Backend

abbrev UserId := Nat

inductive MType where
  | text
  | image
  | file
deriving DecidableEq, Repr

structure Attachment where
  url : String
  filename : String
  originalName : String
  size : Nat
  mimetype : String
deriving DecidableEq, Repr

structure Message where
  id : Nat
  sender : UserId
  receiver : UserId
  content : String
  messageType : MType
  attachments : List Attachment
  isRead : Bool
  readAt : Option Nat
  createdAt : Nat
deriving DecidableEq, Repr

/-- An uploaded file as it arrives in `req.files.attachments`. -/
structure FileUpload where
  name : String
  size : Nat
  mimetype : String
deriving DecidableEq, Repr

/-- Durable state: the `users` collection (ids only) and the `messages`
collection. -/
structure State where
  users : List UserId
  messages : List Message
deriving Repr

/-! ## sendMessage (messageController.js lines 15-172) -/

/-- Outcome of a send.  `validationError` is a 400 response issued by the
controller itself; `notFound` the 404 for an unknown receiver;
`invalidOperation` the 400 for self-messaging; `serverError` the generic 500
"Internal server error" the app's inline error middleware produces for any
error thrown past the controller (in particular mongoose schema validation
failures raised by `Message.create`); `created` the 201 success. -/
inductive SendResult where
  | validationError (reason : String)
  | notFound
  | invalidOperation
  | serverError
  | created (m : Message)
deriving DecidableEq, Repr

/-- The controller's `allowedTypes` list (line 71). -/
def allowedTypes : List String :=
  ["image/jpeg", "image/jpg", "image/png", "image/gif", "image/webp", "application/pdf"]

/-- 5MB cap (line 80). -/
def maxFileSize : Nat := 5 * 1024 * 1024

structure SendReq where
  receiver : Option UserId
  content : String
  messageType : Option MType
  attachments : List FileUpload
deriving Repr

/-- JS `String.prototype.trim` (also the schema's `trim: true`): strip leading
and trailing whitespace, modelled on the string's character list. -/
def trimStr (s : String) : String :=
  ⟨((s.data.dropWhile Char.isWhitespace).reverse.dropWhile Char.isWhitespace).reverse⟩

/-- JS `String.prototype.length`, the measure mongoose's `maxlength` uses. -/
def strLen (s : String) : Nat := s.data.length

/-- The attachment descriptor pushed for a staged file (lines 102-108); the
generated unique on-disk filename is abstracted to the original name. -/
def stageAttachment (f : FileUpload) : Attachment :=
  { url := "/uploads/" ++ f.name
    filename := f.name
    originalName := f.name
    size := f.size
    mimetype := f.mimetype }

/-- The per-file validation loop (lines 69-109): scan in order, rejecting at
the first file whose declared MIME type is not allowed or whose size exceeds
5MB; otherwise stage every file. -/
def validateAttachments : List FileUpload → Except String (List Attachment)
  | [] => .ok []
  | f :: rest =>
    if allowedTypes.contains f.mimetype = false then
      .error "Invalid file type. Only images and PDFs are allowed"
    else if maxFileSize < f.size then
      .error "File size too large. Maximum size is 5MB per file"
    else
      match validateAttachments rest with
      | .error e => .error e
      | .ok atts => .ok (stageAttachment f :: atts)

/-- `sendMessage`: the guard cascade of lines 30-118 followed by
`Message.create` and append to the store.  The schema's maxlength check fires
inside `Message.create`; its mongoose ValidationError is thrown rather than
handled, so the response comes from the generic error middleware as a 500
(`serverError`), not from the controller.  `newId` and `now` stand for the id
and `createdAt` the store assigns. -/
def sendMessage (self : UserId) (req : SendReq) (newId now : Nat) (st : State) :
    SendResult × List Message :=
  match req.receiver with
  | none => (.validationError "Receiver ID is required", st.messages)
  | some receiver =>
    if receiver ∉ st.users then
      (.notFound, st.messages)
    else if receiver = self then
      (.invalidOperation, st.messages)
    else if trimStr req.content = "" then
      (.validationError "Message content is required", st.messages)
    else
      match validateAttachments req.attachments with
      | .error e => (.validationError e, st.messages)
      | .ok atts =>
        if 1000 < strLen (trimStr req.content) then
          (.serverError, st.messages)
        else
          let m : Message :=
            { id := newId
              sender := self
              receiver := receiver
              content := trimStr req.content
              messageType := if atts.isEmpty then req.messageType.getD .text else .file
              attachments := atts
              isRead := false
              readAt := none
              createdAt := now }
          (.created m, st.messages ++ [m])

/-! ## sendTypingIndicator (lines 428-451) -/

inductive TypingResult where
  | validationError
  | ok
deriving DecidableEq, Repr

/-- Typing indicator: only validates presence of `receiverId`; pure fan-out,
the message store is returned untouched. -/
def sendTypingIndicator (receiverId : Option UserId) (isTyping : Bool)
    (store : List Message) : TypingResult × List Message :=
  match receiverId with
  | none => (.validationError, store)
  | some _ => (.ok, store)

/-! ## Read state, unread counts, and the read-sweep of getConversation
(lines 177-254 and 413-423) -/

/-- Filter predicate for a sender/receiver pair, the `$or` of lines 192-197. -/
def pairPred (u p : UserId) (m : Message) : Bool :=
  (m.sender == u && m.receiver == p) || (m.sender == p && m.receiver == u)

/-- All persisted messages between `u` and `p`, in store order. -/
def pairMessages (u p : UserId) (store : List Message) : List Message :=
  store.filter (pairPred u p)

/-- The filter of the bulk `updateMany` of lines 205-222: unread messages from
`peer` to `self`. -/
def sweepPred (self peer : UserId) (m : Message) : Bool :=
  m.sender == peer && m.receiver == self && !m.isRead

/-- Filter of `getUnreadCount` (lines 414-417): unread messages addressed to
`self`. -/
def unreadPred (self : UserId) (m : Message) : Bool :=
  m.receiver == self && !m.isRead

/-- The update document of lines 218-221. -/
def markRead (now : Nat) (m : Message) : Message :=
  { m with isRead := true, readAt := some now }

/-- The bulk read-state update performed by `getConversation`. -/
def readSweep (self peer : UserId) (now : Nat) (store : List Message) : List Message :=
  store.map (fun m => if sweepPred self peer m then markRead now m else m)

/-- How many messages a read-sweep for `(self, peer)` would mark. -/
def sweepCount (self peer : UserId) (store : List Message) : Nat :=
  store.countP (sweepPred self peer)

/-- `getUnreadCount` (lines 413-423). -/
def getUnreadCount (self : UserId) (store : List Message) : Nat :=
  store.countP (unreadPred self)

/-! ### Sorting by createdAt descending -/

/-- The `sort(\x7bcreatedAt: -1\x7d)` relation: `a` comes no later than `b`
when `a.createdAt ≥ b.createdAt`. -/
def descRel (a b : Message) : Prop := b.createdAt ≤ a.createdAt

instance : DecidableRel descRel := fun a b =>
  inferInstanceAs (Decidable (b.createdAt ≤ a.createdAt))

instance : IsTotal Message descRel :=
  ⟨fun a b => Nat.le_total b.createdAt a.createdAt⟩

instance : IsTrans Message descRel :=
  ⟨fun _ _ _ h1 h2 => Nat.le_trans h2 h1⟩

/-- Sort a list of messages by `createdAt` descending. -/
def sortDesc (l : List Message) : List Message := l.insertionSort descRel

/-! ### getConversation (lines 177-254) -/

structure ConvView where
  messages : List Message
  total : Nat
deriving Repr

inductive ConvResult where
  | notFound
  | ok (v : ConvView)
deriving Repr

/-- `getConversation`: peer lookup, then the page query
(sort `createdAt` desc, `skip (page-1)*limit`, `limit`, reversed for display,
lines 192-202 and 244), then the bulk read-sweep of lines 204-222.
The page is computed on the pre-sweep store, as in the source. -/
def getConversation (self peer : UserId) (page limit now : Nat) (st : State) :
    ConvResult × List Message :=
  if peer ∈ st.users then
    (.ok { messages :=
             ((((sortDesc (pairMessages self peer st.messages)).drop
                 ((page - 1) * limit)).take limit).reverse)
           total := (pairMessages self peer st.messages).length },
     readSweep self peer now st.messages)
  else
    (.notFound, st.messages)

/-! ## deleteMessage (lines 379-408) -/

inductive DelResult where
  | notFound
  | deleted (m : Message)
deriving DecidableEq, Repr

/-- `deleteMessage`: `findOne` on id and sender (lines 380-383), 404 when it
misses, otherwise `findByIdAndDelete` (line 392). -/
def deleteMessage (self : UserId) (mid : Nat) (store : List Message) :
    DelResult × List Message :=
  match store.find? (fun m => m.id == mid && m.sender == self) with
  | none => (.notFound, store)
  | some m => (.deleted m, store.filter (fun x => !(x.id == mid)))

/-! ## getConversations (lines 259-328): the aggregation pipeline -/

/-- `$match` stage (lines 262-267): messages touching `u`. -/
def matchPred (u : UserId) (m : Message) : Bool :=
  m.sender == u || m.receiver == u

/-- The `$group` key of lines 274-279: the other participant of a message. -/
def peerOf (u : UserId) (m : Message) : UserId :=
  if m.sender == u then m.receiver else m.sender

/-- The messages of group `p` in pipeline order. -/
def peerFilter (u p : UserId) (l : List Message) : List Message :=
  l.filter (fun x => peerOf u x == p)

structure ConvRow where
  peer : UserId
  lastMessage : Message
  unreadCount : Nat
  totalMessages : Nat
deriving Repr

/-- The group document for key `p` (lines 272-298): `$first` after the
descending sort gives the head of the group, `unreadCount` the conditional
sum, `totalMessages` the group size; `none` when the key has no documents. -/
def rowFor (u : UserId) (l : List Message) (p : UserId) : Option ConvRow :=
  match (peerFilter u p l).head? with
  | none => none
  | some m =>
    some { peer := p
           lastMessage := m
           unreadCount := (peerFilter u p l).countP (unreadPred u)
           totalMessages := (peerFilter u p l).length }

/-- `$group` (lines 272-298): one row per distinct group key. -/
def groupRows (u : UserId) (l : List Message) : List ConvRow :=
  ((l.map (peerOf u)).dedup).filterMap (rowFor u l)

/-- The final `$sort` relation (line 320). -/
def rowDescRel (a b : ConvRow) : Prop :=
  b.lastMessage.createdAt ≤ a.lastMessage.createdAt

instance : DecidableRel rowDescRel := fun a b =>
  inferInstanceAs (Decidable (b.lastMessage.createdAt ≤ a.lastMessage.createdAt))

instance : IsTotal ConvRow rowDescRel :=
  ⟨fun a b => Nat.le_total b.lastMessage.createdAt a.lastMessage.createdAt⟩

instance : IsTrans ConvRow rowDescRel :=
  ⟨fun _ _ _ h1 h2 => Nat.le_trans h2 h1⟩

/-- `getConversations`: `$match`, sort `createdAt` desc, `$group`,
`$lookup`+`$unwind` against the users collection (dropping rows whose peer has
no user document, lines 299-309), final `$sort` by the last message's
`createdAt` descending. -/
def getConversations (u : UserId) (st : State) : List ConvRow :=
  ((groupRows u (sortDesc (st.messages.filter (matchPred u)))).filter
    (fun c => st.users.contains c.peer)).insertionSort rowDescRel

/-! ## Theorems -/

/-- C9: typing-indicator calls never modify the message store — a single call
returns the store untouched, any folded sequence of calls leaves it unchanged —
and the call fails with ValidationError exactly when `receiverId` is missing. -/
theorem sendTypingIndicator_frame (receiverId : Option UserId) (isTyping : Bool)
    (store : List Message) (calls : List (Option UserId × Bool)) :
    (sendTypingIndicator receiverId isTyping store).2 = store ∧
    ((sendTypingIndicator receiverId isTyping store).1 = .validationError ↔
      receiverId = none) ∧
    calls.foldl (fun s c => (sendTypingIndicator c.1 c.2 s).2) store = store := by
  refine ⟨?_, ?_, ?_⟩
  · cases receiverId <;> rfl
  · cases receiverId <;> simp [sendTypingIndicator]
  · induction calls generalizing store with
    | nil => rfl
    | cons c t ih =>
      have h : (sendTypingIndicator c.1 c.2 store).2 = store := by
        cases hc : c.1 <;> simp [sendTypingIndicator, hc]
      simpa [h] using ih store

/-- C10: a send with no receiver identifier fails with the 400
"Receiver ID is required" ValidationError whatever the user store, content and
attachments are (so before any user lookup, self-check or content validation),
persists nothing, and that outcome is distinct from the NotFound returned for a
receiver id that names no user. -/
theorem sendMessage_receiver_required (self : UserId) (req req2 : SendReq)
    (newId now : Nat) (st : State) (h : req.receiver = none) :
    sendMessage self req newId now st
        = (.validationError "Receiver ID is required", st.messages) ∧
    (∀ r, req2.receiver = some r → r ∉ st.users →
        sendMessage self req2 newId now st = (.notFound, st.messages)) ∧
    SendResult.validationError "Receiver ID is required" ≠ SendResult.notFound := by
  refine ⟨?_, ?_, by simp⟩
  · simp [sendMessage, h]
  · intro r hr hnot
    simp [sendMessage, hr, hnot]

theorem sendMessage_receiver_required_witness :
    sendMessage 1 { receiver := none, content := "", messageType := none, attachments := [] }
        7 5 { users := [1, 2], messages := [] }
      = (.validationError "Receiver ID is required", []) :=
  (sendMessage_receiver_required 1 _
    { receiver := some 99, content := "", messageType := none, attachments := [] }
    7 5 { users := [1, 2], messages := [] } rfl).1

/-- C4: a send whose receiver id equals the (authenticated, hence existing)
sender fails with InvalidOperation and persists nothing, whatever the content
and attachments are. -/
theorem sendMessage_self_rejected (self : UserId) (req : SendReq) (newId now : Nat)
    (st : State) (hr : req.receiver = some self) (hu : self ∈ st.users) :
    sendMessage self req newId now st = (.invalidOperation, st.messages) := by
  simp [sendMessage, hr, hu]

theorem sendMessage_self_rejected_witness :
    sendMessage 1 { receiver := some 1, content := "hi", messageType := none, attachments := [] }
        7 5 { users := [1], messages := [] }
      = (.invalidOperation, []) :=
  sendMessage_self_rejected 1 _ 7 5 { users := [1], messages := [] } rfl (by simp)

/-- C8: deleting a message that does not exist or whose sender is not the
caller yields the single NotFound outcome (the two cases are
indistinguishable) and leaves the store unchanged; when the caller is the
sender, the record is hard-deleted from the store. -/
theorem deleteMessage_spec (self : UserId) (mid : Nat) (store : List Message) :
    ((∀ m ∈ store, m.id = mid → m.sender ≠ self) →
        deleteMessage self mid store = (.notFound, store)) ∧
    (∀ m ∈ store, m.id = mid → m.sender = self →
        ∃ d, d.id = mid ∧ d.sender = self ∧
          deleteMessage self mid store
            = (.deleted d, store.filter (fun x => !(x.id == mid)))) := by
  constructor
  · intro h
    have hnone : store.find? (fun m => m.id == mid && m.sender == self) = none := by
      rw [List.find?_eq_none]
      intro x hx
      simp only [Bool.and_eq_true, beq_iff_eq, not_and]
      exact fun hid => by simpa using h x hx hid
    simp [deleteMessage, hnone]
  · intro m hm hid hs
    have hex : ∃ d, store.find? (fun m => m.id == mid && m.sender == self) = some d := by
      cases hfind : store.find? (fun m => m.id == mid && m.sender == self) with
      | some d => exact ⟨d, rfl⟩
      | none =>
        rw [List.find?_eq_none] at hfind
        exact absurd (by simp [hid, hs]) (hfind m hm)
    obtain ⟨d, hd⟩ := hex
    have hpred := List.find?_some hd
    simp only [Bool.and_eq_true, beq_iff_eq] at hpred
    exact ⟨d, hpred.1, hpred.2, by simp [deleteMessage, hd]⟩

/-- A concrete message used by witnesses: id 10, from user 1 to user 2. -/
def sampleMsg : Message :=
  { id := 10
    sender := 1
    receiver := 2
    content := "hi"
    messageType := .text
    attachments := []
    isRead := false
    readAt := none
    createdAt := 100 }

theorem deleteMessage_spec_witness :
    deleteMessage 2 10 [sampleMsg] = (.notFound, [sampleMsg]) :=
  (deleteMessage_spec 2 10 [sampleMsg]).1 (by decide)

lemma validateAttachments_length {fs : List FileUpload} {atts : List Attachment}
    (h : validateAttachments fs = .ok atts) : atts.length = fs.length := by
  induction fs generalizing atts with
  | nil =>
    simp only [validateAttachments, Except.ok.injEq] at h
    simp [← h]
  | cons f t ih =>
    rw [validateAttachments] at h
    split at h
    · exact absurd h (by simp)
    · split at h
      · exact absurd h (by simp)
      · split at h
        · exact absurd h (by simp)
        · rename_i atts2 heq
          simp only [Except.ok.injEq] at h
          simp [← h, ih heq]

/-- C6: whenever `sendMessage` succeeds, the persisted message's type is
`file` if the request carried any attachment — overriding the caller-supplied
type — and is the caller-supplied type (default `text`) when the request
carried none. -/
theorem sendMessage_messageType_override (self : UserId) (req : SendReq)
    (newId now : Nat) (st : State) (m : Message)
    (h : (sendMessage self req newId now st).1 = .created m) :
    (req.attachments ≠ [] → m.messageType = .file) ∧
    (req.attachments = [] → m.messageType = req.messageType.getD .text) := by
  rw [sendMessage] at h
  split at h
  · exact absurd h (by simp)
  · split at h
    · exact absurd h (by simp)
    · split at h
      · exact absurd h (by simp)
      · split at h
        · exact absurd h (by simp)
        · split at h
          · exact absurd h (by simp)
          · rename_i atts heq
            split at h
            · exact absurd h (by simp)
            · simp only [SendResult.created.injEq] at h
              have hlen := validateAttachments_length heq
              constructor
              · intro hne
                have : atts.isEmpty = false := by
                  cases atts with
                  | nil =>
                    exact absurd (by simpa using hlen.symm) hne
                  | cons a l => rfl
                simp [← h, this]
              · intro hnil
                have : atts.isEmpty = true := by
                  cases atts with
                  | nil => rfl
                  | cons a l => simp [hnil] at hlen
                simp [← h, this]

theorem sendMessage_messageType_override_witness :
    ({ id := 7, sender := 1, receiver := 2, content := "hi", messageType := MType.file,
       attachments := [stageAttachment { name := "a.png", size := 100, mimetype := "image/png" }],
       isRead := false, readAt := none, createdAt := 5 } : Message).messageType = MType.file :=
  (sendMessage_messageType_override 1
    { receiver := some 2, content := "hi", messageType := some .image,
      attachments := [{ name := "a.png", size := 100, mimetype := "image/png" }] }
    7 5 { users := [1, 2], messages := [] } _ (by decide)).1 (by simp)

lemma unreadPred_markRead (self : UserId) (now : Nat) (m : Message) :
    unreadPred self (markRead now m) = false := by
  simp [unreadPred, markRead]

lemma sweepPred_markRead (self peer : UserId) (now : Nat) (m : Message) :
    sweepPred self peer (markRead now m) = false := by
  simp [sweepPred, markRead]

lemma readSweep_unread_count (self peer : UserId) (now : Nat) (l : List Message) :
    getUnreadCount self (readSweep self peer now l) + sweepCount self peer l
      = getUnreadCount self l := by
  induction l with
  | nil => rfl
  | cons m t ih =>
    by_cases h : sweepPred self peer m = true
    · have hu : unreadPred self m = true := by
        simp only [sweepPred, Bool.and_eq_true, beq_iff_eq] at h
        simp [unreadPred, h.1.2, h.2]
      simp [readSweep, getUnreadCount, sweepCount, List.countP_cons, h, hu,
        unreadPred_markRead] at ih ⊢
      omega
    · have h' : sweepPred self peer m = false := by
        simpa using h
      simp [readSweep, getUnreadCount, sweepCount, List.countP_cons, h'] at ih ⊢
      omega

lemma sweepCount_readSweep (self peer : UserId) (now : Nat) (l : List Message) :
    sweepCount self peer (readSweep self peer now l) = 0 := by
  induction l with
  | nil => rfl
  | cons m t ih =>
    simp only [readSweep, List.map_cons, sweepCount, List.countP_cons] at ih ⊢
    by_cases h : sweepPred self peer m = true
    · simp [h, sweepPred_markRead, ih]
    · have h' : sweepPred self peer m = false := by simpa using h
      simp [h', ih]

lemma readSweep_idem (self peer : UserId) (now now2 : Nat) (l : List Message) :
    readSweep self peer now2 (readSweep self peer now l) = readSweep self peer now l := by
  induction l with
  | nil => rfl
  | cons m t ih =>
    simp only [readSweep, List.map_cons] at ih ⊢
    by_cases h : sweepPred self peer m = true
    · simp [h, sweepPred_markRead, ih]
    · have h' : sweepPred self peer m = false := by simpa using h
      simp [h', ih]

/-- C2: `getConversation(self, peer)` on an existing peer marks, in the
returned store, every previously-unread `peer → self` message as read with
`readAt` set (leaving every other message in place), the unread count of
`self` drops by exactly the number of messages so transitioned, no unread
`peer → self` message remains, and an immediate second call marks zero
additional messages (the store is a fixed point). -/
theorem getConversation_read_sweep (self peer : UserId) (page limit now now2 : Nat)
    (st : State) (hpeer : peer ∈ st.users) :
    (∀ m ∈ st.messages, m.sender = peer → m.receiver = self → m.isRead = false →
        markRead now m ∈ (getConversation self peer page limit now st).2) ∧
    (∀ m ∈ st.messages, ¬(m.sender = peer ∧ m.receiver = self ∧ m.isRead = false) →
        m ∈ (getConversation self peer page limit now st).2) ∧
    getUnreadCount self (getConversation self peer page limit now st).2
        + sweepCount self peer st.messages = getUnreadCount self st.messages ∧
    sweepCount self peer (getConversation self peer page limit now st).2 = 0 ∧
    (getConversation self peer page limit now2
        { users := st.users, messages := (getConversation self peer page limit now st).2 }).2
      = (getConversation self peer page limit now st).2 := by
  have hsnd : (getConversation self peer page limit now st).2
      = readSweep self peer now st.messages := by
    simp [getConversation, hpeer]
  refine ⟨?_, ?_, ?_, ?_, ?_⟩
  · intro m hm h1 h2 h3
    rw [hsnd]
    have hp : sweepPred self peer m = true := by
      simp [sweepPred, h1, h2, h3]
    have : markRead now m = (fun x => if sweepPred self peer x then markRead now x else x) m := by
      simp [hp]
    rw [readSweep, this]
    exact List.mem_map_of_mem _ hm
  · intro m hm hnot
    rw [hsnd]
    have hp : sweepPred self peer m = false := by
      cases hb : sweepPred self peer m
      · rfl
      · exfalso
        simp only [sweepPred, Bool.and_eq_true, beq_iff_eq, Bool.not_eq_true'] at hb
        exact hnot ⟨hb.1.1, hb.1.2, hb.2⟩
    have : m = (fun x => if sweepPred self peer x then markRead now x else x) m := by
      simp [hp]
    rw [readSweep, this]
    exact List.mem_map_of_mem _ hm
  · rw [hsnd]
    exact readSweep_unread_count self peer now st.messages
  · rw [hsnd]
    exact sweepCount_readSweep self peer now st.messages
  · have hsnd2 : (getConversation self peer page limit now2
        { users := st.users, messages := (getConversation self peer page limit now st).2 }).2
        = readSweep self peer now2 (getConversation self peer page limit now st).2 := by
      simp [getConversation, hpeer]
    rw [hsnd2, hsnd]
    exact readSweep_idem self peer now now2 st.messages

theorem getConversation_read_sweep_witness :
    getUnreadCount 1
        (getConversation 1 2 1 50 300
          { users := [1, 2],
            messages := [{ id := 11, sender := 2, receiver := 1, content := "hello",
                           messageType := .text, attachments := [], isRead := false,
                           readAt := none, createdAt := 200 }] }).2
        + sweepCount 1 2
            [{ id := 11, sender := 2, receiver := 1, content := "hello",
               messageType := .text, attachments := [], isRead := false,
               readAt := none, createdAt := 200 }]
      = getUnreadCount 1
          [{ id := 11, sender := 2, receiver := 1, content := "hello",
             messageType := .text, attachments := [], isRead := false,
             readAt := none, createdAt := 200 }] :=
  (getConversation_read_sweep 1 2 1 50 300 301 _ (by decide)).2.2.1

/-- C7: on an existing peer, `getConversation` returns exactly the page
obtained by sorting the pair's messages by `createdAt` descending, skipping
`(page-1)*limit`, taking `limit`, and reversing; consequently the returned
page is in chronological (`createdAt` ascending) order and contains only
messages of the pair. -/
theorem getConversation_page (self peer : UserId) (page limit now : Nat)
    (st : State) (hpeer : peer ∈ st.users) :
    ∃ v, (getConversation self peer page limit now st).1 = .ok v ∧
      v.messages =
        (((sortDesc (pairMessages self peer st.messages)).drop
            ((page - 1) * limit)).take limit).reverse ∧
      List.Sorted (fun a b => a.createdAt ≤ b.createdAt) v.messages ∧
      ∀ m ∈ v.messages, m ∈ pairMessages self peer st.messages := by
  refine ⟨{ messages :=
              (((sortDesc (pairMessages self peer st.messages)).drop
                  ((page - 1) * limit)).take limit).reverse
            total := (pairMessages self peer st.messages).length },
          by simp [getConversation, hpeer], rfl, ?_, ?_⟩
  · have hs : List.Sorted descRel (sortDesc (pairMessages self peer st.messages)) :=
      List.sorted_insertionSort descRel _
    have hdrop : List.Sorted descRel
        ((sortDesc (pairMessages self peer st.messages)).drop ((page - 1) * limit)) :=
      List.Pairwise.sublist (List.drop_sublist _ _) hs
    have htake : List.Sorted descRel
        (((sortDesc (pairMessages self peer st.messages)).drop
            ((page - 1) * limit)).take limit) :=
      List.Pairwise.sublist (List.take_sublist _ _) hdrop
    rw [List.Sorted, List.pairwise_reverse]
    exact htake
  · intro m hm
    rw [List.mem_reverse] at hm
    have h1 : m ∈ sortDesc (pairMessages self peer st.messages) :=
      (List.drop_subset _ _) ((List.take_subset _ _) hm)
    exact ((List.perm_insertionSort descRel _).mem_iff).1 h1

theorem getConversation_page_witness :
    ∃ v, (getConversation 1 2 1 50 300
        { users := [1, 2],
          messages := [{ id := 11, sender := 2, receiver := 1, content := "hello",
                         messageType := .text, attachments := [], isRead := false,
                         readAt := none, createdAt := 200 }] }).1 = .ok v ∧
      v.messages =
        (((sortDesc (pairMessages 1 2
            [{ id := 11, sender := 2, receiver := 1, content := "hello",
               messageType := .text, attachments := [], isRead := false,
               readAt := none, createdAt := 200 }])).drop ((1 - 1) * 50)).take 50).reverse ∧
      List.Sorted (fun a b => a.createdAt ≤ b.createdAt) v.messages ∧
      ∀ m ∈ v.messages,
        m ∈ pairMessages 1 2
          [{ id := 11, sender := 2, receiver := 1, content := "hello",
             messageType := .text, attachments := [], isRead := false,
             readAt := none, createdAt := 200 }] :=
  getConversation_page 1 2 1 50 300 _ (by decide)

lemma validateAttachments_error_of_bad {fs : List FileUpload}
    (h : ∃ f ∈ fs, allowedTypes.contains f.mimetype = false ∨ maxFileSize < f.size) :
    ∃ s, validateAttachments fs = .error s := by
  induction fs with
  | nil => simp at h
  | cons f t ih =>
    rw [validateAttachments]
    by_cases h1 : allowedTypes.contains f.mimetype = false
    · exact ⟨_, by rw [if_pos h1]⟩
    · by_cases h2 : maxFileSize < f.size
      · exact ⟨_, by rw [if_neg h1, if_pos h2]⟩
      · obtain ⟨g, hg, hbad⟩ := h
        rcases List.mem_cons.1 hg with rfl | hgt
        · rcases hbad with hb | hb
          · exact absurd hb h1
          · exact absurd hb h2
        · obtain ⟨s, hs⟩ := ih ⟨g, hgt, hbad⟩
          exact ⟨s, by rw [if_neg h1, if_neg h2, hs]⟩

/-- Guards that necessarily held when `sendMessage` persisted a message. -/
lemma sendMessage_created_inv (self : UserId) (req : SendReq) (newId now : Nat)
    (st : State) (m : Message)
    (h : (sendMessage self req newId now st).1 = .created m) :
    trimStr req.content ≠ "" ∧ strLen (trimStr req.content) ≤ 1000 ∧
    ∃ atts, validateAttachments req.attachments = .ok atts := by
  rw [sendMessage] at h
  split at h
  · exact absurd h (by simp)
  · split at h
    · exact absurd h (by simp)
    · split at h
      · exact absurd h (by simp)
      · split at h
        · exact absurd h (by simp)
        · rename_i hcontent
          split at h
          · exact absurd h (by simp)
          · rename_i atts heq
            split at h
            · exact absurd h (by simp)
            · rename_i hlen
              exact ⟨hcontent, by omega, atts, heq⟩

/-- Every failing call leaves the store unchanged; a successful call appends
exactly the created message. -/
lemma sendMessage_cases (self : UserId) (req : SendReq) (newId now : Nat) (st : State) :
    (sendMessage self req newId now st).2 = st.messages ∨
    ∃ m, sendMessage self req newId now st = (.created m, st.messages ++ [m]) := by
  rw [sendMessage]
  split
  · exact Or.inl rfl
  · split
    · exact Or.inl rfl
    · split
      · exact Or.inl rfl
      · split
        · exact Or.inl rfl
        · split
          · exact Or.inl rfl
          · split
            · exact Or.inl rfl
            · exact Or.inr ⟨_, rfl⟩

/-- Whether a send outcome is a ValidationError. -/
def isValidationError : SendResult → Bool
  | .validationError _ => true
  | _ => false

/-- C3, counterexample to the claim as stated: this request carries an
attachment whose MIME type is outside the allow-list, yet the send fails with
NotFound (the receiver id names no user), not with ValidationError. -/
theorem sendMessage_bad_attachment_counterexample :
    allowedTypes.contains "application/exe" = false ∧
    (sendMessage 1 { receiver := some 99, content := "hi", messageType := none,
                     attachments := [{ name := "x.exe", size := 10,
                                       mimetype := "application/exe" }] }
      7 5 { users := [1, 2], messages := [] }).1 = .notFound ∧
    isValidationError (sendMessage 1
      { receiver := some 99, content := "hi", messageType := none,
        attachments := [{ name := "x.exe", size := 10,
                          mimetype := "application/exe" }] }
      7 5 { users := [1, 2], messages := [] }).1 = false := by
  exact ⟨by decide, by decide, by decide⟩

/-- C3, amended: a send carrying an attachment with a disallowed MIME type or
a size above 5MB always fails and persists nothing; the failure is a
ValidationError whenever the receiver check passes (the receiver id is
present, names an existing user, and is not the sender); otherwise the earlier
receiver failure is reported instead, still persisting nothing. -/
theorem sendMessage_bad_attachment (self : UserId) (req : SendReq) (newId now : Nat)
    (st : State)
    (hbad : ∃ f ∈ req.attachments,
        allowedTypes.contains f.mimetype = false ∨ maxFileSize < f.size) :
    ((sendMessage self req newId now st).2 = st.messages ∧
      ∀ m, (sendMessage self req newId now st).1 ≠ .created m) ∧
    (∀ r, req.receiver = some r → r ∈ st.users → r ≠ self →
        ∃ s, sendMessage self req newId now st = (.validationError s, st.messages)) := by
  obtain ⟨e, he⟩ := validateAttachments_error_of_bad hbad
  have hnc : ∀ m, (sendMessage self req newId now st).1 ≠ .created m := by
    intro m hm
    obtain ⟨-, -, atts, hok⟩ := sendMessage_created_inv self req newId now st m hm
    rw [he] at hok
    exact absurd hok (by simp)
  constructor
  · refine ⟨?_, hnc⟩
    rcases sendMessage_cases self req newId now st with h | ⟨m, h⟩
    · exact h
    · exact absurd (by rw [h]) (hnc m)
  · intro r hr hru hrs
    by_cases hc : trimStr req.content = ""
    · exact ⟨"Message content is required", by rw [sendMessage, hr]; simp [hru, hrs, hc]⟩
    · exact ⟨e, by rw [sendMessage, hr]; simp [hru, hrs, hc, he]⟩

theorem sendMessage_bad_attachment_witness :
    ∃ s, sendMessage 1 { receiver := some 2, content := "hi", messageType := none,
                         attachments := [{ name := "x.exe", size := 10,
                                           mimetype := "application/exe" }] }
      7 5 { users := [1, 2], messages := [] } = (.validationError s, []) :=
  (sendMessage_bad_attachment 1 _ 7 5 { users := [1, 2], messages := [] }
    (by decide)).2 2 rfl (by decide) (by decide)

/-- A 1001-character content, over the schema maxlength even after trimming. -/
def longContent : String := ⟨List.replicate 1001 'a'⟩

lemma validateAttachments_ok_of_valid {fs : List FileUpload}
    (h : ∀ f ∈ fs, allowedTypes.contains f.mimetype = true ∧ f.size ≤ maxFileSize) :
    ∃ atts, validateAttachments fs = .ok atts := by
  induction fs with
  | nil => exact ⟨[], rfl⟩
  | cons f t ih =>
    obtain ⟨h1, h2⟩ := h f (List.mem_cons_self f t)
    obtain ⟨atts, hok⟩ := ih (fun g hg => h g (List.mem_cons_of_mem f hg))
    refine ⟨stageAttachment f :: atts, ?_⟩
    rw [validateAttachments, if_neg (by rw [h1]; decide), if_neg (by omega), hok]

set_option maxRecDepth 20000 in
/-- C5, counterexample to the claim as stated, in both of its failure modes:
an empty-content request with a receiver id naming no user fails with
NotFound, not ValidationError (the receiver check runs first); and an
over-length request with a fully valid receiver fails with the generic 500
server error produced by the app's inline error middleware from the mongoose
maxlength throw, again not a ValidationError. -/
theorem sendMessage_invalid_content_counterexample :
    (trimStr "" = "" ∧
      (sendMessage 1 { receiver := some 99, content := "", messageType := none,
                       attachments := [] } 7 5 { users := [1, 2], messages := [] }).1
        = .notFound ∧
      isValidationError (sendMessage 1
        { receiver := some 99, content := "", messageType := none,
          attachments := [] } 7 5 { users := [1, 2], messages := [] }).1 = false) ∧
    (1000 < strLen (trimStr longContent) ∧
      sendMessage 1 { receiver := some 2, content := longContent, messageType := none,
                      attachments := [] } 7 5 { users := [1, 2], messages := [] }
        = (.serverError, []) ∧
      isValidationError SendResult.serverError = false) := by
  exact ⟨⟨by decide, by decide, by decide⟩, ⟨by decide, by decide, by decide⟩⟩

/-- C5, amended: a send whose content is empty or whitespace-only after
trimming, or longer than 1000 characters after trimming, always fails and
creates no message record.  When the receiver check passes (receiver id
present, names an existing user, is not the sender): empty or
whitespace-only content is rejected by the controller with the 400
"Message content is required" ValidationError, while over-length content
passes every controller guard (given valid attachments; an invalid attachment
fails earlier with its own ValidationError) and is rejected inside
`Message.create` by the schema maxlength, surfacing as the generic 500 server
error, not as a ValidationError.  A failing receiver check is reported
instead, still creating no record. -/
theorem sendMessage_invalid_content (self : UserId) (req : SendReq) (newId now : Nat)
    (st : State)
    (hc : trimStr req.content = "" ∨ 1000 < strLen (trimStr req.content)) :
    ((sendMessage self req newId now st).2 = st.messages ∧
      ∀ m, (sendMessage self req newId now st).1 ≠ .created m) ∧
    (∀ r, req.receiver = some r → r ∈ st.users → r ≠ self →
      (trimStr req.content = "" →
        sendMessage self req newId now st
          = (.validationError "Message content is required", st.messages)) ∧
      (1000 < strLen (trimStr req.content) →
        (∀ f ∈ req.attachments,
            allowedTypes.contains f.mimetype = true ∧ f.size ≤ maxFileSize) →
        sendMessage self req newId now st = (.serverError, st.messages))) := by
  have hnc : ∀ m, (sendMessage self req newId now st).1 ≠ .created m := by
    intro m hm
    obtain ⟨h1, h2, -⟩ := sendMessage_created_inv self req newId now st m hm
    rcases hc with hc | hc
    · exact h1 hc
    · omega
  constructor
  · refine ⟨?_, hnc⟩
    rcases sendMessage_cases self req newId now st with h | ⟨m, h⟩
    · exact h
    · exact absurd (by rw [h]) (hnc m)
  · intro r hr hru hrs
    constructor
    · intro hc1
      rw [sendMessage, hr]
      simp [hru, hrs, hc1]
    · intro hlen hatts
      have hne : trimStr req.content ≠ "" := by
        intro h0
        rw [h0] at hlen
        simp [strLen] at hlen
      obtain ⟨atts, hok⟩ := validateAttachments_ok_of_valid hatts
      rw [sendMessage, hr]
      simp [hru, hrs, hne, hok, hlen]

theorem sendMessage_invalid_content_witness :
    sendMessage 1 { receiver := some 2, content := "   ", messageType := none,
                    attachments := [] } 7 5 { users := [1, 2], messages := [] }
      = (.validationError "Message content is required", []) :=
  ((sendMessage_invalid_content 1 _ 7 5 { users := [1, 2], messages := [] }
    (Or.inl (by decide))).2 2 rfl (by decide) (by decide)).1 (by decide)

/-! ### Lemmas about the aggregation pipeline -/

lemma rowFor_eq_some {u : UserId} {l : List Message} {p : UserId} {c : ConvRow}
    (h : rowFor u l p = some c) :
    c.peer = p ∧ (peerFilter u p l).head? = some c.lastMessage ∧
    c.unreadCount = (peerFilter u p l).countP (unreadPred u) := by
  rw [rowFor] at h
  split at h
  · exact absurd h (by simp)
  · rename_i m hm
    simp only [Option.some.injEq] at h
    rw [← h]
    exact ⟨rfl, hm, rfl⟩

lemma rowFor_isSome_of_mem {u : UserId} {l : List Message} {p : UserId}
    (h : ∃ x ∈ l, peerOf u x = p) : ∃ c, rowFor u l p = some c := by
  obtain ⟨x, hx, hpx⟩ := h
  have hmem : x ∈ peerFilter u p l := by
    rw [peerFilter, List.mem_filter]
    exact ⟨hx, by simp [hpx]⟩
  rw [rowFor]
  cases hl : (peerFilter u p l).head? with
  | none =>
    rw [List.head?_eq_none_iff] at hl
    rw [hl] at hmem
    exact absurd hmem (List.not_mem_nil x)
  | some m => exact ⟨_, rfl⟩

lemma filterMap_rowFor_map_peer (u : UserId) (l : List Message) (ps : List UserId)
    (h : ∀ p ∈ ps, ∃ x ∈ l, peerOf u x = p) :
    (ps.filterMap (rowFor u l)).map ConvRow.peer = ps := by
  induction ps with
  | nil => rfl
  | cons p t ih =>
    obtain ⟨c, hc⟩ := rowFor_isSome_of_mem (h p (List.mem_cons_self p t))
    rw [List.filterMap_cons, hc, List.map_cons, (rowFor_eq_some hc).1,
      ih (fun q hq => h q (List.mem_cons_of_mem p hq))]

lemma groupRows_map_peer (u : UserId) (l : List Message) :
    (groupRows u l).map ConvRow.peer = (l.map (peerOf u)).dedup := by
  rw [groupRows]
  apply filterMap_rowFor_map_peer
  intro p hp
  rw [List.mem_dedup] at hp
  exact List.mem_map.1 hp

lemma groupRows_mem {u : UserId} {l : List Message} {c : ConvRow}
    (h : c ∈ groupRows u l) : ∃ p, rowFor u l p = some c := by
  rw [groupRows, List.mem_filterMap] at h
  obtain ⟨p, -, hp⟩ := h
  exact ⟨p, hp⟩

/-- Pointwise identity connecting "matched and grouped under key `p`" with the
pair predicate of the two-user conversation query. -/
lemma peer_match_pointwise (u p : UserId) (m : Message) :
    ((peerOf u m == p) && matchPred u m) = pairPred u p m := by
  simp only [peerOf, matchPred, pairPred]
  cases hsu : m.sender == u <;> cases hru : m.receiver == u <;>
    cases hsp : m.sender == p <;> cases hrp : m.receiver == p <;>
    simp_all [beq_iff_eq]

lemma peerFilter_filter_matched (u p : UserId) (store : List Message) :
    peerFilter u p (store.filter (matchPred u)) = pairMessages u p store := by
  rw [peerFilter, pairMessages, List.filter_filter]
  exact List.filter_congr (fun m _ => peer_match_pointwise u p m)

/-- C1, counterexample to the claim as stated: user 2 once exchanged a
message with user 1 but no longer exists in the users collection (the admin
deleteUser endpoint hard-deletes the user document without cascading to
messages), so the `$lookup`/`$unwind` stage drops the group and user 1's
conversation list is missing the peer entirely. -/
theorem getConversations_missing_peer_counterexample :
    pairMessages 1 2 [{ id := 11, sender := 2, receiver := 1, content := "hello",
                        messageType := .text, attachments := [], isRead := false,
                        readAt := none, createdAt := 200 }] ≠ [] ∧
    (getConversations 1
        { users := [1],
          messages := [{ id := 11, sender := 2, receiver := 1, content := "hello",
                         messageType := .text, attachments := [], isRead := false,
                         readAt := none, createdAt := 200 }] }).map ConvRow.peer = [] := by
  exact ⟨by decide, by decide⟩

/-- C1, amended: for every user `u` and state, `getConversations u` has
pairwise-distinct peers and one row for `p` exactly when `u` and `p` have
exchanged at least one message AND `p` still exists in the users collection —
the `$lookup`/`$unwind` stage drops peers whose user document was deleted
(admin user deletion does not cascade to messages).  Each row's `lastMessage`
is the maximum-`createdAt` message of the pair, its `unreadCount` counts
exactly the pair's messages with receiver `u` and `isRead` false, and the
rows are sorted by their last message's `createdAt`, descending. -/
theorem getConversations_spec (u : UserId) (st : State) :
    ((getConversations u st).map ConvRow.peer).Nodup ∧
    (∀ p : UserId, p ∈ (getConversations u st).map ConvRow.peer ↔
        (pairMessages u p st.messages ≠ [] ∧ p ∈ st.users)) ∧
    (∀ c ∈ getConversations u st,
        c.lastMessage ∈ pairMessages u c.peer st.messages ∧
        (∀ m ∈ pairMessages u c.peer st.messages,
            m.createdAt ≤ c.lastMessage.createdAt) ∧
        c.unreadCount = (pairMessages u c.peer st.messages).countP (unreadPred u)) ∧
    List.Sorted (fun a b : Nat => b ≤ a)
      ((getConversations u st).map (fun c => c.lastMessage.createdAt)) := by
  have hperm : List.Perm (sortDesc (st.messages.filter (matchPred u)))
      (st.messages.filter (matchPred u)) :=
    List.perm_insertionSort descRel _
  have hsort : List.Sorted descRel (sortDesc (st.messages.filter (matchPred u))) :=
    List.sorted_insertionSort descRel _
  have key : ∀ p, List.Perm (peerFilter u p (sortDesc (st.messages.filter (matchPred u))))
      (pairMessages u p st.messages) := by
    intro p
    have h1 := hperm.filter (fun x => peerOf u x == p)
    have h2 := peerFilter_filter_matched u p st.messages
    rw [peerFilter] at h2
    rw [peerFilter, ← h2]
    exact h1
  have hpermRows : List.Perm (getConversations u st)
      ((groupRows u (sortDesc (st.messages.filter (matchPred u)))).filter
        (fun c => st.users.contains c.peer)) := by
    rw [getConversations]
    exact List.perm_insertionSort rowDescRel _
  have hpeers : (groupRows u (sortDesc (st.messages.filter (matchPred u)))).map
      ConvRow.peer = ((sortDesc (st.messages.filter (matchPred u))).map (peerOf u)).dedup :=
    groupRows_map_peer u _
  refine ⟨?_, ?_, ?_, ?_⟩
  · rw [List.Perm.nodup_iff (hpermRows.map ConvRow.peer)]
    have hnodup0 : ((groupRows u (sortDesc (st.messages.filter (matchPred u)))).map
        ConvRow.peer).Nodup := by
      rw [hpeers]
      exact List.nodup_dedup _
    exact hnodup0.sublist (List.Sublist.map ConvRow.peer (List.filter_sublist _))
  · intro p
    rw [List.Perm.mem_iff (hpermRows.map ConvRow.peer)]
    constructor
    · intro hp
      obtain ⟨c, hcf, hcp⟩ := List.mem_map.1 hp
      obtain ⟨hc0, hq⟩ := List.mem_filter.1 hcf
      subst hcp
      constructor
      · have hmem : c.peer ∈ (groupRows u (sortDesc (st.messages.filter (matchPred u)))).map
            ConvRow.peer := List.mem_map_of_mem ConvRow.peer hc0
        rw [hpeers, List.mem_dedup] at hmem
        obtain ⟨x, hx, hpx⟩ := List.mem_map.1 hmem
        intro hnil
        have hmemf : x ∈ peerFilter u c.peer (sortDesc (st.messages.filter (matchPred u))) := by
          rw [peerFilter, List.mem_filter]
          exact ⟨hx, by simp [hpx]⟩
        have := (key c.peer).mem_iff.1 hmemf
        rw [hnil] at this
        exact List.not_mem_nil x this
      · exact List.elem_iff.1 hq
    · rintro ⟨hne, hpu⟩
      have hp0 : p ∈ (groupRows u (sortDesc (st.messages.filter (matchPred u)))).map
          ConvRow.peer := by
        rw [hpeers, List.mem_dedup]
        rcases hl : pairMessages u p st.messages with _ | ⟨a, t⟩
        · exact absurd hl hne
        · have ha : a ∈ peerFilter u p (sortDesc (st.messages.filter (matchPred u))) := by
            rw [(key p).mem_iff, hl]
            exact List.mem_cons_self a t
          rw [peerFilter, List.mem_filter] at ha
          exact List.mem_map.2 ⟨a, ha.1, by simpa using ha.2⟩
      obtain ⟨c, hc0, hcp⟩ := List.mem_map.1 hp0
      refine List.mem_map.2 ⟨c, List.mem_filter.2 ⟨hc0, ?_⟩, hcp⟩
      rw [hcp]
      exact List.elem_iff.2 hpu
  · intro c hc
    obtain ⟨hc0, -⟩ := List.mem_filter.1 (hpermRows.mem_iff.1 hc)
    obtain ⟨p, hp⟩ := groupRows_mem hc0
    obtain ⟨hcp, hhead, hcount⟩ := rowFor_eq_some hp
    subst hcp
    have hsortf : List.Sorted descRel
        (peerFilter u c.peer (sortDesc (st.messages.filter (matchPred u)))) :=
      List.Pairwise.sublist (List.filter_sublist _) hsort
    rcases hl : peerFilter u c.peer (sortDesc (st.messages.filter (matchPred u))) with
      _ | ⟨a, t⟩
    · rw [hl] at hhead
      exact absurd hhead (by simp)
    · rw [hl] at hhead
      have ha : a = c.lastMessage := by simpa using hhead
      subst ha
      refine ⟨?_, ?_, ?_⟩
      · exact (key c.peer).mem_iff.1 (by rw [hl]; exact List.mem_cons_self _ t)
      · intro m hm
        have hmf := (key c.peer).mem_iff.2 hm
        rw [hl] at hmf
        rcases List.mem_cons.1 hmf with rfl | hmt
        · exact Nat.le_refl _
        · rw [hl] at hsortf
          exact List.rel_of_sorted_cons hsortf m hmt
      · rw [hcount]
        exact List.Perm.countP_eq (unreadPred u) (key c.peer)
  · have hsrows : List.Sorted rowDescRel (getConversations u st) := by
      rw [getConversations]
      exact List.sorted_insertionSort rowDescRel _
    exact List.Pairwise.map _ (fun a b hab => hab) hsrows

theorem getConversations_spec_witness :
    (((getConversations 1
        { users := [1, 2],
          messages := [{ id := 11, sender := 2, receiver := 1, content := "hello",
                         messageType := .text, attachments := [], isRead := false,
                         readAt := none, createdAt := 200 }] }).map ConvRow.peer).Nodup) ∧
    (∀ p : UserId, p ∈ (getConversations 1
        { users := [1, 2],
          messages := [{ id := 11, sender := 2, receiver := 1, content := "hello",
                         messageType := .text, attachments := [], isRead := false,
                         readAt := none, createdAt := 200 }] }).map ConvRow.peer ↔
        (pairMessages 1 p [{ id := 11, sender := 2, receiver := 1, content := "hello",
                             messageType := .text, attachments := [], isRead := false,
                             readAt := none, createdAt := 200 }] ≠ [] ∧
          p ∈ ([1, 2] : List UserId))) ∧
    (∀ c ∈ getConversations 1
        { users := [1, 2],
          messages := [{ id := 11, sender := 2, receiver := 1, content := "hello",
                         messageType := .text, attachments := [], isRead := false,
                         readAt := none, createdAt := 200 }] },
        c.lastMessage ∈ pairMessages 1 c.peer
            [{ id := 11, sender := 2, receiver := 1, content := "hello",
               messageType := .text, attachments := [], isRead := false,
               readAt := none, createdAt := 200 }] ∧
        (∀ m ∈ pairMessages 1 c.peer
            [{ id := 11, sender := 2, receiver := 1, content := "hello",
               messageType := .text, attachments := [], isRead := false,
               readAt := none, createdAt := 200 }],
            m.createdAt ≤ c.lastMessage.createdAt) ∧
        c.unreadCount = (pairMessages 1 c.peer
            [{ id := 11, sender := 2, receiver := 1, content := "hello",
               messageType := .text, attachments := [], isRead := false,
               readAt := none, createdAt := 200 }]).countP (unreadPred 1)) ∧
    List.Sorted (fun a b : Nat => b ≤ a)
      ((getConversations 1
        { users := [1, 2],
          messages := [{ id := 11, sender := 2, receiver := 1, content := "hello",
                         messageType := .text, attachments := [], isRead := false,
                         readAt := none, createdAt := 200 }] }).map
        (fun c => c.lastMessage.createdAt)) :=
  getConversations_spec 1
    { users := [1, 2],
      messages := [{ id := 11, sender := 2, receiver := 1, content := "hello",
                     messageType := .text, attachments := [], isRead := false,
                     readAt := none, createdAt := 200 }] }

end Backend
